import Mathlib

/-
Verification development for the admitto resource-catalog application.

The definitions below are a shallow embedding of the code:
  - src/database/schema.sql          (resources table, documents table, match_documents)
  - src/database/seed_resources.sql  (resources_category_check after STEP 1, seeded rows)
  - src/frontend/app/page.tsx        (getRecentResources)
  - src/frontend/app/scholarships/page.tsx (fetchScholarships, fieldIncludes, ScholarshipGrid)
  - src/frontend/app/jobs/page.tsx   (fetchJobResources)
  - src/unnamed/part_000             (fetchVisaResources, the visa-guide page)
  - src/scripts/README.md            (the client Resource TypeScript type from lib/supabase)

Timestamps are modelled as integers, JavaScript runtime values as the
inductive `JVal`, SQL vectors as lists of reals.
-/

namespace Admitto

/-- A scalar JavaScript runtime value. -/
inductive JAtom where
  | str : String → JAtom
  | num : Int → JAtom
  | bool : Bool → JAtom
  | null : JAtom
  deriving DecidableEq

/-- A JavaScript runtime value, as far as the pages' defensive checks
(`typeof field === 'string'`, `Array.isArray(field)`) can distinguish them:
a scalar, null, or an array (whose elements are scalars — the only element
shapes occurring in this repository's metadata). -/
inductive JVal where
  | str : String → JVal
  | num : Int → JVal
  | bool : Bool → JVal
  | null : JVal
  | arr : List JAtom → JVal
  deriving DecidableEq

/-- The client `Resource` record from `lib/supabase` (quoted in src/scripts/README.md);
`category` is kept as a plain string here so that the store constraint and the
client union can be compared.  `deadline`, `last_updated` are display strings;
`created_at` is the sort key and is modelled as an integer timestamp. -/
structure Resource where
  id : String
  title : String
  description : Option String := none
  url : Option String := none
  category : String
  country : String := "Canada"
  institution : Option String := none
  deadline : Option String := none
  eligibility : Option String := none
  amount : Option String := none
  tags : Option (List String) := none
  last_updated : Int := 0
  created_at : Int := 0
  metadata : Option (List (String × JVal)) := none
  deriving DecidableEq

/-- `leadsWith p t` means the character list `p` is an initial segment of `t`. -/
def leadsWith : List Char → List Char → Bool
  | [], _ => true
  | _ :: _, [] => false
  | p :: ps, c :: cs => p == c && leadsWith ps cs

/-- `occursIn p t` means `p` occurs as a contiguous segment of `t`
(JavaScript `String.prototype.includes` on the underlying characters). -/
def occursIn (p : List Char) : List Char → Bool
  | [] => leadsWith p []
  | c :: cs => leadsWith p (c :: cs) || occursIn p cs

/-- JavaScript `s.includes(needle)` for strings: substring containment. -/
def strIncludes (s needle : String) : Bool :=
  occursIn needle.data s.data

/-- `fieldIncludes` from src/frontend/app/scholarships/page.tsx (lines 40-44):
string fields are tested by substring containment, array fields by element
membership, every other shape (absent, null, non-string scalar) is
non-matching. -/
def fieldIncludes : Option JVal → String → Bool
  | some (JVal.str s), needle => strIncludes s needle
  | some (JVal.arr l), needle => l.contains (JAtom.str needle)
  | _, _ => false

/-- `s.metadata?.level`: optional chaining through the metadata mapping. -/
def metadataLevel (r : Resource) : Option JVal :=
  r.metadata.bind (List.lookup "level")

/-- `s.tags` as the JavaScript value handed to `fieldIncludes`
(either an array of strings or null/undefined). -/
def tagsVal (r : Resource) : Option JVal :=
  r.tags.map (fun ts => JVal.arr (ts.map JAtom.str))

/-- The tag/level predicate of the scholarships page (the spec's
`filterByTagOrLevel` membership test): the needle matches the
`metadata.level` field or the `tags` field. -/
def levelTagMatch (r : Resource) (needle : String) : Bool :=
  fieldIncludes (metadataLevel r) needle || fieldIncludes (tagsVal r) needle

/-- The spec's `filterByTagOrLevel(resources, needle)`. -/
def filterByTagOrLevel (rs : List Resource) (needle : String) : List Resource :=
  rs.filter (fun r => levelTagMatch r needle)

/-- The descending `created_at` ordering used by
`order('created_at', { ascending: false })`. -/
def createdGE (a b : Resource) : Prop :=
  b.created_at ≤ a.created_at

instance : DecidableRel createdGE :=
  fun a b => inferInstanceAs (Decidable (b.created_at ≤ a.created_at))

instance : IsTotal Resource createdGE :=
  ⟨fun a b => le_total b.created_at a.created_at⟩

instance : IsTrans Resource createdGE :=
  ⟨fun _ _ _ h1 h2 => le_trans h2 h1⟩

/-- One permissible output of
`supabase.from('resources').select('*').eq('category', cat)
.order('created_at', { ascending: false })`: a deterministic refinement that
realizes the query plan with one particular tie order.  The query itself has
no secondary sort key, so the relative order of rows with equal `created_at`
is implementation-dependent; `IsListingResult` below captures exactly what
the query guarantees. -/
def listByCategory (store : List Resource) (cat : String) : List Resource :=
  List.insertionSort createdGE (store.filter (fun r => r.category == cat))

/-- One permissible output of the home page query
(src/frontend/app/page.tsx): `order('created_at', { ascending: false })
.limit(6)` with no category filter, again with one particular tie order. -/
def getRecentResources (store : List Resource) : List Resource :=
  (List.insertionSort createdGE store).take 6

/-- What `eq('category', cat).order('created_at', DESC)` actually guarantees:
`out` is a permissible result of the category listing query when it consists
of exactly the matching rows of the store and is non-increasing in
`created_at`.  The SQL standard (and PostgreSQL) leave the relative order of
rows with an equal sort key unspecified, and the query has no secondary sort
key, so every such reordering is a possible output. -/
def IsListingResult (store : List Resource) (cat : String)
    (out : List Resource) : Prop :=
  out.Perm (store.filter (fun r => r.category == cat)) ∧
    List.Pairwise createdGE out

/-- What the home page query guarantees: a permissible result is the first
six rows of some non-increasing reordering of the whole store. -/
def IsRecentResult (store : List Resource) (out : List Resource) : Prop :=
  ∃ s, s.Perm store ∧ List.Pairwise createdGE s ∧ out = s.take 6

/-- Descending order on integer timestamps. -/
def intGE (a b : Int) : Prop :=
  b ≤ a

instance : IsAntisymm Int intGE :=
  ⟨fun _ _ h1 h2 => le_antisymm h2 h1⟩

/-- Outcome of a supabase query as seen by a page: either the rows, or an
error (store unreachable / query failed, in which case `data` is null). -/
inductive QueryOutcome (α : Type) where
  | ok : List α → QueryOutcome α
  | err : QueryOutcome α

/-- `fetchScholarships` (src/frontend/app/scholarships/page.tsx lines 20-37):
on error it calls `console.error` and returns early, leaving the page state at
its initial empty list.  Result: (list shown to the caller, whether
`console.error` ran). -/
def fetchScholarships : QueryOutcome Resource → List Resource × Bool
  | QueryOutcome.ok data => (data, false)
  | QueryOutcome.err => ([], true)

/-- `fetchJobResources` (src/frontend/app/jobs/page.tsx lines 17-29): it
destructures only `data` and stores `data || []`; a query error is never
inspected and nothing is logged. -/
def fetchJobResources : QueryOutcome Resource → List Resource × Bool
  | QueryOutcome.ok data => (data, false)
  | QueryOutcome.err => ([], false)

/-- `fetchVisaResources` (src/unnamed/part_000 lines 17-29): same shape as the
jobs page, `data || []` with no error inspection and no logging. -/
def fetchVisaResources : QueryOutcome Resource → List Resource × Bool
  | QueryOutcome.ok data => (data, false)
  | QueryOutcome.err => ([], false)

/-- `getRecentResources` error boundary (src/frontend/app/page.tsx lines 5-18):
on error it calls `console.error` and returns the empty list. -/
def getRecentOutcome : QueryOutcome Resource → List Resource × Bool
  | QueryOutcome.ok data => (data, false)
  | QueryOutcome.err => ([], true)

/-- The category enumeration of the CHECK constraint installed by
src/database/seed_resources.sql STEP 1 (`resources_category_check`). -/
def validCategories : List String :=
  ["scholarship", "visa", "job", "accommodation", "general", "university"]

/-- The store's write-time category constraint after the seed script ran. -/
def resources_category_check (c : String) : Bool :=
  validCategories.contains c

/-- The category union of the client `Resource` TypeScript type
(`lib/supabase`, quoted in src/scripts/README.md lines 157-172). -/
def clientCategories : List String :=
  ["scholarship", "visa", "job", "accommodation", "general"]

/-- The categories of the 30 rows inserted by src/database/seed_resources.sql:
10 scholarships, 6 universities, 5 visa resources, 9 job resources. -/
def seededCategories : List String :=
  List.replicate 10 "scholarship" ++ List.replicate 6 "university" ++
    List.replicate 5 "visa" ++ List.replicate 9 "job"

/-- `INSERT INTO resources` guarded by the CHECK constraint: the row is
appended when its category passes `resources_category_check`, otherwise the
write is rejected. -/
def insertResource (store : List Resource) (r : Resource) : Option (List Resource) :=
  if resources_category_check r.category then some (store ++ [r]) else none

/-- First tag block of `ScholarshipGrid`
(src/frontend/app/scholarships/page.tsx, lines 219-225):
`Array.isArray(scholarship.tags) ? scholarship.tags.slice(0, 4) : []`. -/
def tagBlockA (r : Resource) : List String :=
  match r.tags with
  | some ts => ts.take 4
  | none => []

/-- Second tag block of `ScholarshipGrid` (lines 226-232):
`scholarship.tags?.slice(0, 4)` mapped to badges; when `tags` is null the
optional chain yields undefined and nothing is rendered. -/
def tagBlockB (r : Resource) : List String :=
  (r.tags.map (fun ts => ts.take 4)).getD []

/-- The two consecutive tag-badge blocks rendered for one scholarship card. -/
def renderedTagBlocks (r : Resource) : List (List String) :=
  [tagBlockA r, tagBlockB r]

/-- A row of the `documents` table (src/database/schema.sql): a text chunk
with an embedding vector, modelled as a list of reals. -/
structure Document where
  id : Int
  content : String
  metadata : Option (List (String × JVal)) := none
  embedding : List ℝ

/-- Componentwise dot product of two vectors. -/
def dot : List ℝ → List ℝ → ℝ
  | a :: u, b :: v => a * b + dot u v
  | _, _ => 0

/-- pgvector's cosine-distance operator `<=>`:
one minus the cosine of the angle between the two vectors. -/
noncomputable def cosineDistance (u v : List ℝ) : ℝ :=
  1 - dot u v / (Real.sqrt (dot u u) * Real.sqrt (dot v v))

/-- A row of the result table of `match_documents`
(`id`, `content`, `metadata`, `similarity`). -/
structure MatchRow where
  id : Int
  content : String
  metadata : Option (List (String × JVal))
  similarity : ℝ

/-- `1 - (documents.embedding <=> query_embedding) AS similarity`:
the select list of `match_documents` applied to one stored document. -/
noncomputable def toMatchRow (query_embedding : List ℝ) (d : Document) : MatchRow :=
  { id := d.id, content := d.content, metadata := d.metadata,
    similarity := 1 - cosineDistance d.embedding query_embedding }

/-- The descending similarity ordering of `ORDER BY similarity DESC`. -/
def simGE (a b : MatchRow) : Prop :=
  b.similarity ≤ a.similarity

noncomputable instance : DecidableRel simGE :=
  fun a b => inferInstanceAs (Decidable (b.similarity ≤ a.similarity))

instance : IsTotal MatchRow simGE :=
  ⟨fun a b => le_total b.similarity a.similarity⟩

instance : IsTrans MatchRow simGE :=
  ⟨fun _ _ _ h1 h2 => le_trans h2 h1⟩

/-- `match_documents(query_embedding, match_threshold, match_count)` from
src/database/schema.sql lines 40-62: compute the similarity of every stored
document, keep the rows whose similarity strictly exceeds the threshold,
order them by similarity descending, and return at most `match_count` rows. -/
noncomputable def match_documents (docs : List Document) (query_embedding : List ℝ)
    (match_threshold : ℝ) (match_count : Nat) : List MatchRow :=
  (List.insertionSort simGE
    ((docs.map (toMatchRow query_embedding)).filter
      (fun row => decide (match_threshold < row.similarity)))).take match_count

/-- A document whose 1536-dimensional embedding points opposite to
`negQuery`. -/
noncomputable def negDoc : Document :=
  { id := 1, content := "chunk", embedding := (-1 : ℝ) :: List.replicate 1535 0 }

/-- A 1536-dimensional query vector opposite to `negDoc`'s embedding. -/
noncomputable def negQuery : List ℝ :=
  (1 : ℝ) :: List.replicate 1535 0

/-- A concrete well-formed resource row used to instantiate theorems. -/
def sampleResource : Resource :=
  { id := "r1", title := "Vanier Canada Graduate Scholarships",
    category := "scholarship", created_at := 100,
    tags := some ["doctoral", "fully-funded"],
    metadata := some [("level", JVal.str "Doctoral (PhD)")] }

/-- A scholarship row; it shares its `created_at` with `tiedRes2`, as the
seed script produces: every row of one multi-row INSERT gets the same
`NOW()` (transaction timestamp) default. -/
def tiedRes1 : Resource :=
  { id := "a1", title := "Scholarship A", category := "scholarship",
    created_at := 0 }

/-- A second scholarship row with the same `created_at` as `tiedRes1`. -/
def tiedRes2 : Resource :=
  { id := "b2", title := "Scholarship B", category := "scholarship",
    created_at := 0 }

/-- C1 counterexample: on a failed query, the jobs page stores the empty list
but emits no observable error signal — the error is destructured away and
nothing is logged, refuting the claim that every page surfaces an error
signal alongside the empty result. -/
theorem c1_jobs_page_swallows_error :
    fetchJobResources QueryOutcome.err = ([], false) ∧
    ¬(fetchJobResources QueryOutcome.err).2 = true :=
  ⟨rfl, fun h => Bool.false_ne_true h⟩

/-- C1 (amended): on a failed query every page ends up with the empty list
(never a partial result); the scholarships page and the home page additionally
run `console.error`, while the jobs and visa pages swallow the error
silently. -/
theorem c1_error_boundary_empty_results :
    fetchScholarships QueryOutcome.err = ([], true) ∧
    getRecentOutcome QueryOutcome.err = ([], true) ∧
    (fetchJobResources QueryOutcome.err).1 = [] ∧
    (fetchVisaResources QueryOutcome.err).1 = [] ∧
    (fetchJobResources QueryOutcome.err).2 = false ∧
    (fetchVisaResources QueryOutcome.err).2 = false :=
  ⟨rfl, rfl, rfl, rfl, rfl, rfl⟩

/-- For every shape of the optional field, `fieldIncludes` is matching exactly
when the field is a string containing the needle as a substring, or an array
containing the needle as an element. -/
lemma fieldIncludes_iff (o : Option JVal) (needle : String) :
    fieldIncludes o needle = true ↔
      (∃ s, o = some (JVal.str s) ∧ strIncludes s needle = true) ∨
      (∃ l, o = some (JVal.arr l) ∧ JAtom.str needle ∈ l) := by
  cases o with
  | none => simp [fieldIncludes]
  | some v =>
    cases v with
    | str s => simp [fieldIncludes]
    | num k => simp [fieldIncludes]
    | bool b => simp [fieldIncludes]
    | null => simp [fieldIncludes]
    | arr l => simp [fieldIncludes, List.elem_iff]

/-- The tags side of the predicate: matching exactly when `tags` is present
and contains the needle as an element. -/
lemma fieldIncludes_tagsVal (r : Resource) (needle : String) :
    fieldIncludes (tagsVal r) needle = true ↔
      ∃ ts, r.tags = some ts ∧ needle ∈ ts := by
  cases h : r.tags with
  | none => simp [tagsVal, h, fieldIncludes]
  | some ts =>
    simp [tagsVal, h, fieldIncludes, List.elem_iff]

/-- C4: the tag/level filter predicate is total over every shape of
`metadata.level`: it matches exactly when the needle is a substring of a
string-shaped level, an element of an array-shaped level, or an element of
`tags`; a level that is absent, null, or a non-string scalar is non-matching
and the predicate never fails. -/
theorem c4_fieldIncludes_total_characterisation :
    ∀ (r : Resource) (needle : String),
      (levelTagMatch r needle = true ↔
        (∃ s, metadataLevel r = some (JVal.str s) ∧ strIncludes s needle = true) ∨
        (∃ l, metadataLevel r = some (JVal.arr l) ∧ JAtom.str needle ∈ l) ∨
        (∃ ts, r.tags = some ts ∧ needle ∈ ts)) ∧
      (∀ k : Int, fieldIncludes (some (JVal.num k)) needle = false) ∧
      (∀ b : Bool, fieldIncludes (some (JVal.bool b)) needle = false) ∧
      fieldIncludes (some JVal.null) needle = false ∧
      fieldIncludes none needle = false := by
  intro r needle
  refine ⟨?_, fun _ => rfl, fun _ => rfl, rfl, rfl⟩
  rw [levelTagMatch, Bool.or_eq_true, fieldIncludes_iff, fieldIncludes_tagsVal,
    or_assoc]

/-- C5: every resource returned by a category listing query has the category
that was asked for. -/
theorem c5_listByCategory_only_matching :
    ∀ (store : List Resource) (cat : String),
      (listByCategory store cat).all (fun r => r.category == cat) = true := by
  intro store cat
  rw [List.all_eq_true]
  intro r hr
  simp only [listByCategory, List.mem_insertionSort, List.mem_filter] at hr
  exact hr.2

/-- Two non-increasing orderings of the same rows carry the same
`created_at` sequence: the key sequence of a listing result is uniquely
determined even though the tie order is not. -/
lemma map_created_eq_of_sorted_perm {l1 l2 : List Resource}
    (hp : l1.Perm l2)
    (h1 : List.Pairwise createdGE l1) (h2 : List.Pairwise createdGE l2) :
    l1.map Resource.created_at = l2.map Resource.created_at := by
  have h1m : (l1.map Resource.created_at).Pairwise intGE :=
    List.pairwise_map.mpr h1
  have h2m : (l2.map Resource.created_at).Pairwise intGE :=
    List.pairwise_map.mpr h2
  exact List.eq_of_perm_of_sorted (hp.map Resource.created_at) h1m h2m

/-- When the `created_at` keys are pairwise distinct, a non-increasing
ordering of a given row multiset is unique. -/
lemma eq_of_sorted_perm_nodup_keys {l1 l2 : List Resource}
    (hp : l1.Perm l2) (h1 : List.Pairwise createdGE l1)
    (h2 : List.Pairwise createdGE l2)
    (hnd : (l1.map Resource.created_at).Nodup) : l1 = l2 := by
  induction l1 generalizing l2 with
  | nil => exact (hp.symm.eq_nil).symm
  | cons a l1 ih =>
    cases l2 with
    | nil => exact absurd hp.eq_nil (List.cons_ne_nil a l1)
    | cons b l2 =>
      have hmap := map_created_eq_of_sorted_perm hp h1 h2
      simp only [List.map_cons, List.cons.injEq] at hmap
      obtain ⟨hab, htl⟩ := hmap
      have hb : a = b := by
        have hmem : a ∈ b :: l2 := hp.subset (List.mem_cons_self a l1)
        rcases List.mem_cons.mp hmem with h | h
        · exact h
        · exfalso
          have hkey : a.created_at ∈ l2.map Resource.created_at :=
            List.mem_map_of_mem Resource.created_at h
          rw [← htl] at hkey
          simp only [List.map_cons, List.nodup_cons] at hnd
          exact hnd.1 hkey
      subst hb
      have hnd2 : (l1.map Resource.created_at).Nodup := by
        simp only [List.map_cons, List.nodup_cons] at hnd
        exact hnd.2
      rw [ih hp.cons_inv (List.pairwise_cons.mp h1).2
        (List.pairwise_cons.mp h2).2 hnd2]

/-- C6 counterexample: with two matching rows that share one `created_at`
(the seed gives every row of an INSERT the same `NOW()`), the reversed order
is also a permissible result of the listing query — the query has no
secondary sort key — yet its tie class is not in store (insertion) order, so
stable tie-breaking is not a property of the code. -/
theorem c6_counterexample_tie_order_unspecified :
    IsListingResult [tiedRes1, tiedRes2] "scholarship" [tiedRes2, tiedRes1] ∧
    ¬ ([tiedRes2, tiedRes1].filter (fun r => r.created_at == (0 : Int)) =
        ([tiedRes1, tiedRes2].filter (fun r => r.category == "scholarship")).filter
          (fun r => r.created_at == (0 : Int))) := by
  constructor
  · constructor
    · have hf : ([tiedRes1, tiedRes2].filter
          (fun r => r.category == "scholarship")) = [tiedRes1, tiedRes2] := rfl
      rw [hf]
      exact List.Perm.swap tiedRes1 tiedRes2 []
    · exact List.pairwise_cons.mpr
        ⟨fun c hc => by
          rw [List.mem_singleton.mp hc]
          exact le_refl _,
        List.pairwise_singleton _ _⟩
  · decide

/-- C6 (amended): every permissible result of a catalog listing query is
non-increasing in `created_at` across consecutive elements, and its
`created_at` sequence is uniquely determined by the store state; the relative
order of rows with equal `created_at` is implementation-dependent (the query
has no secondary sort key).  The deterministic models `listByCategory` and
`getRecentResources` each realize one permissible result, and every
permissible home page result is likewise non-increasing. -/
theorem c6_results_nonincreasing_ties_unspecified :
    ∀ (store : List Resource) (cat : String) (out1 out2 : List Resource),
      IsListingResult store cat out1 → IsListingResult store cat out2 →
      List.Chain' createdGE out1 ∧
      out1.map Resource.created_at = out2.map Resource.created_at ∧
      IsListingResult store cat (listByCategory store cat) ∧
      (∀ rec, IsRecentResult store rec → List.Chain' createdGE rec) ∧
      IsRecentResult store (getRecentResources store) := by
  intro store cat out1 out2 h1 h2
  refine ⟨h1.2.chain', ?_, ?_, ?_, ?_⟩
  · exact map_created_eq_of_sorted_perm (h1.1.trans h2.1.symm) h1.2 h2.2
  · exact ⟨List.perm_insertionSort createdGE _,
      List.sorted_insertionSort createdGE _⟩
  · rintro rec ⟨s, _, hsort, rfl⟩
    exact ((hsort.sublist (List.take_sublist 6 s)).chain')
  · exact ⟨List.insertionSort createdGE store,
      List.perm_insertionSort createdGE store,
      List.sorted_insertionSort createdGE store, rfl⟩

/-- Witness for C6 (amended) at a concrete store: the singleton listing is a
permissible result of its own store and the theorem's conclusions hold
there. -/
theorem c6_results_nonincreasing_ties_unspecified_witness :
    IsListingResult [tiedRes1] "scholarship" [tiedRes1] ∧
    (List.Chain' createdGE [tiedRes1] ∧
      [tiedRes1].map Resource.created_at = [tiedRes1].map Resource.created_at ∧
      IsListingResult [tiedRes1] "scholarship" (listByCategory [tiedRes1] "scholarship") ∧
      (∀ rec, IsRecentResult [tiedRes1] rec → List.Chain' createdGE rec) ∧
      IsRecentResult [tiedRes1] (getRecentResources [tiedRes1])) := by
  have h : IsListingResult [tiedRes1] "scholarship" [tiedRes1] :=
    ⟨List.Perm.refl _, List.pairwise_singleton _ _⟩
  exact ⟨h, c6_results_nonincreasing_ties_unspecified
    [tiedRes1] "scholarship" [tiedRes1] [tiedRes1] h h⟩

/-- C8 counterexample: both orders of the two tied scholarship rows are
permissible results of the very same store state, and they differ — so
identical ordered output across two calls with no intervening writes is not
guaranteed by the code. -/
theorem c8_counterexample_two_orders_same_store :
    IsListingResult [tiedRes1, tiedRes2] "scholarship" [tiedRes1, tiedRes2] ∧
    IsListingResult [tiedRes1, tiedRes2] "scholarship" [tiedRes2, tiedRes1] ∧
    [tiedRes1, tiedRes2] ≠ ([tiedRes2, tiedRes1] : List Resource) := by
  refine ⟨⟨List.Perm.refl _, ?_⟩, ⟨?_, ?_⟩, by decide⟩
  · exact List.pairwise_cons.mpr
      ⟨fun c hc => by
        rw [List.mem_singleton.mp hc]
        exact le_refl _,
      List.pairwise_singleton _ _⟩
  · have hf : ([tiedRes1, tiedRes2].filter
        (fun r => r.category == "scholarship")) = [tiedRes1, tiedRes2] := rfl
    rw [hf]
    exact List.Perm.swap tiedRes1 tiedRes2 []
  · exact List.pairwise_cons.mpr
      ⟨fun c hc => by
        rw [List.mem_singleton.mp hc]
        exact le_refl _,
      List.pairwise_singleton _ _⟩

/-- C8 (amended): two scholarship listing reads of the same store state with
no intervening writes agree up to tie order — the results are permutations
of each other with identical `created_at` sequences — and when the matching
rows carry pairwise distinct `created_at` values the ordered output is
unique.  Full ordered identity in general is not guaranteed, because the
order within an equal-`created_at` tie class is implementation-dependent. -/
theorem c8_reads_agree_up_to_tie_order :
    ∀ (store out1 out2 : List Resource),
      IsListingResult store "scholarship" out1 →
      IsListingResult store "scholarship" out2 →
      out1.Perm out2 ∧
      out1.map Resource.created_at = out2.map Resource.created_at ∧
      (((store.filter (fun r => r.category == "scholarship")).map
          Resource.created_at).Nodup → out1 = out2) := by
  intro store out1 out2 h1 h2
  have hp : out1.Perm out2 := h1.1.trans h2.1.symm
  refine ⟨hp, map_created_eq_of_sorted_perm hp h1.2 h2.2, ?_⟩
  intro hnd
  exact eq_of_sorted_perm_nodup_keys hp h1.2 h2.2
    (((h1.1.map Resource.created_at).symm).nodup hnd)

/-- Witness for C8 (amended) at a concrete store: the singleton listing is a
permissible result of its own store; applied twice, both reads agree and the
distinct-keys uniqueness applies. -/
theorem c8_reads_agree_up_to_tie_order_witness :
    IsListingResult [tiedRes1] "scholarship" [tiedRes1] ∧
    ([tiedRes1].Perm [tiedRes1] ∧
      [tiedRes1].map Resource.created_at = [tiedRes1].map Resource.created_at ∧
      ((([tiedRes1].filter (fun r => r.category == "scholarship")).map
          Resource.created_at).Nodup → [tiedRes1] = ([tiedRes1] : List Resource))) := by
  have h : IsListingResult [tiedRes1] "scholarship" [tiedRes1] :=
    ⟨List.Perm.refl _, List.pairwise_singleton _ _⟩
  exact ⟨h, c8_reads_agree_up_to_tie_order [tiedRes1] [tiedRes1] [tiedRes1] h h⟩

/-- C7: after the seed script's STEP 1 constraint is installed, a write is
accepted exactly when its category is one of the six enumerated values, and a
successful insert preserves the invariant that every stored category passes
the check. -/
theorem c7_category_check_write_time :
    ∀ (store : List Resource) (r : Resource),
      ((insertResource store r).isSome = resources_category_check r.category) ∧
      (resources_category_check r.category = true ↔ r.category ∈ validCategories) ∧
      (∀ s2, insertResource store r = some s2 →
        store.all (fun x => resources_category_check x.category) = true →
        s2.all (fun x => resources_category_check x.category) = true) := by
  intro store r
  refine ⟨?_, List.elem_iff, ?_⟩
  · by_cases h : resources_category_check r.category = true
    · simp [insertResource, h]
    · simp [insertResource, h, Bool.eq_false_iff.mpr h]
  · intro s2 hins hall
    by_cases h : resources_category_check r.category = true
    · rw [insertResource, if_pos h] at hins
      cases hins
      rw [List.all_append, hall, List.all_cons, h, List.all_nil]
      rfl
    · rw [insertResource, if_neg h] at hins
      cases hins

/-- Witness for C7 at a concrete store and row: inserting a scholarship row
into the empty store succeeds and the resulting store satisfies the category
invariant. -/
theorem c7_category_check_write_time_witness :
    insertResource [] sampleResource = some [sampleResource] ∧
    ([sampleResource].all (fun x => resources_category_check x.category)) = true := by
  refine ⟨by decide, ?_⟩
  exact (c7_category_check_write_time [] sampleResource).2.2 [sampleResource]
    (by decide) (by decide)

/-- C9: the scholarship card renders two consecutive identical tag blocks,
each holding the first four tags (the copy-paste duplication noted by the
spec). -/
theorem c9_duplicate_tag_blocks :
    ∀ r : Resource,
      renderedTagBlocks r = [tagBlockA r, tagBlockA r] ∧
      tagBlockA r = (r.tags.getD []).take 4 := by
  intro r
  cases h : r.tags <;> simp [renderedTagBlocks, tagBlockA, tagBlockB, h]

/-- C10 counterexample: `'university'` is accepted by the store's post-seed
category constraint and occurs among the seeded rows, yet it is not a member
of the client `Resource` type's category union — the two category sets are
not equal. -/
theorem c10_university_missing_from_client_type :
    resources_category_check "university" = true ∧
    clientCategories.contains "university" = false ∧
    "university" ∈ seededCategories := by
  refine ⟨rfl, rfl, ?_⟩
  simp [seededCategories]

/-- C10 (amended): the client type's category union is a proper subset of the
store's accepted set — every client category and every seeded category passes
the store constraint, but the accepted (and seeded) value `'university'` is
absent from the client type, so the seeded university rows are not
representable by the client type. -/
theorem c10_client_categories_proper_subset :
    clientCategories.all resources_category_check = true ∧
    seededCategories.all resources_category_check = true ∧
    resources_category_check "university" = true ∧
    clientCategories.contains "university" = false :=
  ⟨by decide, by decide, rfl, rfl⟩

lemma dot_nil_left (v : List ℝ) : dot [] v = 0 := by cases v <;> rfl

lemma dot_nil_right (u : List ℝ) : dot u [] = 0 := by cases u <;> rfl

lemma dot_self_nonneg : ∀ u : List ℝ, 0 ≤ dot u u
  | [] => le_refl 0
  | a :: u => by
    have h := dot_self_nonneg u
    simp only [dot]
    nlinarith [sq_nonneg a]

/-- Cauchy–Schwarz for the componentwise dot product. -/
lemma dot_sq_le : ∀ u v : List ℝ, dot u v ^ 2 ≤ dot u u * dot v v
  | [], v => by
    rw [dot_nil_left, dot_nil_left]
    norm_num
  | _ :: _, [] => by
    rw [dot_nil_right, dot_nil_right]
    norm_num
  | a :: u, b :: v => by
    have ih := dot_sq_le u v
    have hu := dot_self_nonneg u
    have hv := dot_self_nonneg v
    simp only [dot]
    rcases eq_or_lt_of_le hv with hV0 | hVpos
    · have h1 : dot u v ^ 2 ≤ 0 := by
        rw [← hV0, mul_zero] at ih
        exact ih
      have hD0 : dot u v = 0 :=
        (pow_eq_zero_iff two_ne_zero).mp (le_antisymm h1 (sq_nonneg _))
      rw [hD0, ← hV0]
      nlinarith [mul_nonneg hu (sq_nonneg b)]
    · nlinarith [sq_nonneg (a * dot v v - b * dot u v),
        mul_nonneg (sq_nonneg b) (sub_nonneg.mpr ih),
        mul_nonneg (le_of_lt hVpos) (sub_nonneg.mpr ih)]

/-- The cosine-derived similarity of any pair of vectors lies in [-1, 1]. -/
lemma similarity_mem_Icc (u v : List ℝ) :
    -1 ≤ 1 - cosineDistance u v ∧ 1 - cosineDistance u v ≤ 1 := by
  have hval : 1 - cosineDistance u v
      = dot u v / (Real.sqrt (dot u u) * Real.sqrt (dot v v)) := by
    rw [cosineDistance]
    ring
  rw [hval]
  rcases eq_or_ne (Real.sqrt (dot u u) * Real.sqrt (dot v v)) 0 with h0 | h0
  · rw [h0, div_zero]
    norm_num
  · have hu := dot_self_nonneg u
    have hnn : 0 ≤ Real.sqrt (dot u u) * Real.sqrt (dot v v) :=
      mul_nonneg (Real.sqrt_nonneg _) (Real.sqrt_nonneg _)
    have hpos : 0 < Real.sqrt (dot u u) * Real.sqrt (dot v v) :=
      lt_of_le_of_ne hnn (Ne.symm h0)
    have habs : |dot u v| ≤ Real.sqrt (dot u u) * Real.sqrt (dot v v) := by
      rw [← Real.sqrt_mul hu]
      calc |dot u v| = Real.sqrt (dot u v ^ 2) := (Real.sqrt_sq_eq_abs _).symm
        _ ≤ Real.sqrt (dot u u * dot v v) := Real.sqrt_le_sqrt (dot_sq_le u v)
    constructor
    · rw [le_div_iff₀ hpos]
      have hlow := (abs_le.mp habs).1
      linarith
    · rw [div_le_one hpos]
      exact le_trans (le_abs_self _) habs

/-- Every row of a `match_documents` result is the projection of a stored
document and passed the threshold filter. -/
lemma mem_match_documents {docs : List Document} {q : List ℝ} {t : ℝ} {n : Nat}
    {row : MatchRow} (h : row ∈ match_documents docs q t n) :
    (∃ d ∈ docs, row = toMatchRow q d) ∧ t < row.similarity := by
  simp only [match_documents] at h
  have h2 := List.mem_of_mem_take h
  rw [List.mem_insertionSort, List.mem_filter] at h2
  obtain ⟨hmem, hdec⟩ := h2
  rw [List.mem_map] at hmem
  obtain ⟨d, hd, hrow⟩ := hmem
  exact ⟨⟨d, hd, hrow.symm⟩, of_decide_eq_true hdec⟩

/-- C2: `match_documents` returns at most `match_count` rows, each strictly
above the threshold, ordered by similarity highest first, and returns the
empty sequence when no stored document qualifies. -/
theorem c2_match_documents_contract :
    ∀ (docs : List Document) (q : List ℝ) (t : ℝ) (n : Nat),
      (match_documents docs q t n).length ≤ n ∧
      (∀ i : Fin (match_documents docs q t n).length,
        t < ((match_documents docs q t n).get i).similarity) ∧
      List.Pairwise simGE (match_documents docs q t n) ∧
      ((∀ d ∈ docs, ¬ t < (toMatchRow q d).similarity) →
        match_documents docs q t n = []) := by
  intro docs q t n
  refine ⟨?_, ?_, ?_, ?_⟩
  · simp only [match_documents]
    exact List.length_take_le n _
  · intro i
    exact (mem_match_documents ((match_documents docs q t n).get_mem i.1 i.2)).2
  · simp only [match_documents]
    exact (List.sorted_insertionSort simGE _).sublist (List.take_sublist n _)
  · intro hnone
    simp only [match_documents]
    have hfil : (docs.map (toMatchRow q)).filter
        (fun row => decide (t < row.similarity)) = [] := by
      rw [List.filter_eq_nil_iff]
      intro row hrow
      rw [List.mem_map] at hrow
      obtain ⟨d, hd, hrow⟩ := hrow
      subst hrow
      simp only [decide_eq_true_eq]
      exact hnone d hd
    rw [hfil]
    simp

/-- Witness for C2 at a concrete store: one document orthogonal to the query
fails a positive threshold, so the result is empty. -/
theorem c2_match_documents_contract_witness :
    match_documents [{ id := 1, content := "chunk", embedding := [0] }]
      [0] (1/2) 5 = [] := by
  have hz : ∀ d ∈ [({ id := 1, content := "chunk", embedding := [0] } : Document)],
      ¬ (1/2 : ℝ) < (toMatchRow [0] d).similarity := by
    intro d hd
    rw [List.mem_singleton] at hd
    subst hd
    have hsim : (toMatchRow [0]
        ({ id := 1, content := "chunk", embedding := [0] } : Document)).similarity
        = 0 := by
      simp [toMatchRow, cosineDistance, dot]
    rw [hsim]
    norm_num
  exact (c2_match_documents_contract _ [0] (1/2) 5).2.2.2 hz

lemma dot_cons (a b : ℝ) (u v : List ℝ) :
    dot (a :: u) (b :: v) = a * b + dot u v :=
  rfl

lemma dot_replicate_zero : ∀ n : Nat,
    dot (List.replicate n (0:ℝ)) (List.replicate n 0) = 0
  | 0 => rfl
  | n + 1 => by
    simp only [List.replicate_succ, dot, dot_replicate_zero n]
    ring

/-- The similarity `match_documents` computes for `negDoc` against `negQuery`
is exactly -1. -/
lemma negDoc_similarity : (toMatchRow negQuery negDoc).similarity = -1 := by
  have h1 : dot negDoc.embedding negQuery = -1 := by
    show dot ((-1 : ℝ) :: List.replicate 1535 0) ((1 : ℝ) :: List.replicate 1535 0) = -1
    rw [dot_cons, dot_replicate_zero]
    ring
  have h2 : dot negDoc.embedding negDoc.embedding = 1 := by
    show dot ((-1 : ℝ) :: List.replicate 1535 0) ((-1 : ℝ) :: List.replicate 1535 0) = 1
    rw [dot_cons, dot_replicate_zero]
    ring
  have h3 : dot negQuery negQuery = 1 := by
    show dot ((1 : ℝ) :: List.replicate 1535 0) ((1 : ℝ) :: List.replicate 1535 0) = 1
    rw [dot_cons, dot_replicate_zero]
    ring
  simp only [toMatchRow, cosineDistance]
  rw [h1, h2, h3, Real.sqrt_one]
  norm_num

/-- C3 counterexample: for the 1536-dimensional stored embedding opposite to
the query vector, `match_documents` returns a row whose similarity is -1,
which does not lie in [0, 1]. -/
theorem c3_counterexample_negative_similarity :
    (match_documents [negDoc] negQuery (-2) 5).map MatchRow.similarity = [-1] ∧
    ¬ (0:ℝ) ≤ -1 := by
  constructor
  · have hdec : decide ((-2:ℝ) < (toMatchRow negQuery negDoc).similarity) = true := by
      rw [negDoc_similarity]
      exact decide_eq_true (by norm_num)
    simp [match_documents, hdec, negDoc_similarity]
  · norm_num

/-- C3 (amended): every similarity score returned by `match_documents` lies
in the interval [-1, 1] — the score is 1 minus the cosine distance, hence the
cosine of the angle between query and stored embedding, which can be
negative. -/
theorem c3_similarity_within_closed_interval :
    ∀ (docs : List Document) (q : List ℝ) (t : ℝ) (n : Nat)
      (i : Fin (match_documents docs q t n).length),
      -1 ≤ ((match_documents docs q t n).get i).similarity ∧
      ((match_documents docs q t n).get i).similarity ≤ 1 := by
  intro docs q t n i
  obtain ⟨⟨d, _, hrow⟩, _⟩ :=
    mem_match_documents ((match_documents docs q t n).get_mem i.1 i.2)
  rw [hrow]
  simpa [toMatchRow] using similarity_mem_Icc d.embedding q

end Admitto
